import Mathlib

/-!
Verification of the FAMuS dataset-unification and ontology-processing core
(`scripts/process_famus.py`, `scripts/process_ontology.py`).

The Python code is shallowly embedded: dictionaries become structures (a field
of type `Option _` marks a key that may be absent or bound to Python `None`),
Python lists become `List`, `' '.join` becomes `joinSp`, character positions are
`Nat` but stored span values are `Int` (Python integer subtraction may go
negative), and an operation that can raise `IndexError` returns `Option` with
`none` for the raised exception.
-/

namespace Famus

/-- Python `' '.join(tokens)`: tokens joined by a single ASCII space, `""` for `[]`. -/
def joinSp : List String → String
  | [] => ""
  | [t] => t
  | t :: ts => t ++ " " ++ joinSp ts

/-- The character-position loop shared by `convert_template` and
`extract_trigger_11`:

    char_positions = []
    current_pos = 0
    for i, token in enumerate(tokens):
        char_positions.append(current_pos)
        current_pos += len(token)
        if i < len(tokens) - 1:
            current_pos += 1

`current_pos` is the accumulator; the `+ 1` for the joining space is added
whenever the token is not the last one. -/
def char_positions_from (current_pos : Nat) : List String → List Nat
  | [] => []
  | token :: rest =>
      current_pos ::
        char_positions_from (current_pos + token.length + (if rest.isEmpty then 0 else 1)) rest

def char_positions (tokens : List String) : List Nat :=
  char_positions_from 0 tokens

/-- A raw annotation dictionary as built by `convert_role_annotations` /
`convert_template` and possibly enriched with `role_definition` by the ontology
pass.  `role_definition = none` models the key being absent from the dict. -/
structure Annot where
  text : String
  span : List Int
  token_span : List Int
  role : String
  label : String
  role_definition : Option String
deriving Repr, DecidableEq

/-- The output of `normalize_annotation`: every key is present (the `.get`
defaults can no longer be distinguished from stored values). -/
structure NormAnnot where
  text : String
  span : List Int
  token_span : List Int
  role : String
  label : String
  role_definition : String
deriving Repr, DecidableEq

/-- Model of `normalize_annotation(annotation)`.  The constructors of raw annotations
always store `text`, `span`, `token_span`, `role` and `label`, so only the
`role_definition` default `''` is reachable. -/
def normalize_annotation (a : Annot) : NormAnnot :=
  { text := a.text
    span := a.span
    token_span := a.token_span
    role := a.role
    label := a.label
    role_definition := a.role_definition.getD "" }

/-- A trigger record as built by `extract_trigger` (FAMuS 1.0) or
`extract_trigger_11` (FAMuS 1.1).  In the 1.1 path `start_char`/`end_char` and
`start_token`/`end_token` can be bound to Python `None`, modelled by `none`. -/
structure Trigger where
  text : String
  start_char : Option Int
  end_char : Option Int
  start_token : Option Int
  end_token : Option Int
  frame : String
deriving Repr, DecidableEq

/-- Model of `normalize_trigger(trigger)`.  `None` maps to `None`; otherwise the six
keys are read back with `.get`.  Both trigger constructors store all six keys,
so the `.get` defaults are unreachable and stored `None` values survive. -/
def normalize_trigger : Option Trigger → Option Trigger
  | none => none
  | some t =>
      some { text := t.text
             start_char := t.start_char
             end_char := t.end_char
             start_token := t.start_token
             end_token := t.end_token
             frame := t.frame }

/-- The comparison key `(ann['role'], ann['text'], tuple(ann.get('span', [])))`
used by `annotations_differ`. -/
def annKey (ann : NormAnnot) : String × String × List Int :=
  (ann.role, ann.text, ann.span)

/-- Model of `annotations_differ(ann1_list, ann2_list)`: unequal lengths differ;
otherwise compare the unordered sets of `(role, text, span)` keys. -/
def annotations_differ (ann1_list ann2_list : List NormAnnot) : Bool :=
  if ann1_list.length ≠ ann2_list.length then true
  else
    decide ((ann1_list.map annKey).toFinset ≠ (ann2_list.map annKey).toFinset)

/-- Model of `triggers_differ(trigger1, trigger2)`: presence mismatch differs; both
absent do not differ; both present compare `text`, `start_char`, `end_char`. -/
def triggers_differ (trigger1 trigger2 : Option Trigger) : Bool :=
  if trigger1.isNone ≠ trigger2.isNone then true
  else
    match trigger1, trigger2 with
    | none, _ => false
    | some t1, some t2 =>
        decide (t1.text ≠ t2.text) || decide (t1.start_char ≠ t2.start_char) ||
          decide (t1.end_char ≠ t2.end_char)
    | some _, none => false

/-- One normalized document: `{text, annotations, trigger}`. -/
structure AnnotatedDocument where
  text : String
  annotations : List NormAnnot
  trigger : Option Trigger
deriving Repr, DecidableEq

/-- One normalized per-version record: `{report, source}`. -/
structure SchemaInstance where
  report : AnnotatedDocument
  source : AnnotatedDocument
deriving Repr, DecidableEq

/-- Model of `versions_differ(v1_0, v1_1)`: the early-return cascade over report
annotations, source annotations, report triggers, source triggers. -/
def versions_differ (v10 v11 : SchemaInstance) : Bool :=
  if annotations_differ v10.report.annotations v11.report.annotations then true
  else if annotations_differ v10.source.annotations v11.source.annotations then true
  else if triggers_differ v10.report.trigger v11.report.trigger then true
  else if triggers_differ v10.source.trigger v11.source.trigger then true
  else false

/-- One entry of a `role_annotations` span list.  `good` models a tuple with at
least six elements `(text, start_char, end_char, start_token, end_token, label)`;
`short` models a tuple with fewer than six elements, whose fields are never
read because `convert_role_annotations` drops it. -/
inductive SpanEntry where
  | good (text : String) (start_char end_char start_token end_token : Int) (label : String)
  | short
deriving Repr, DecidableEq

/-- One entry of a `frame-trigger-span` field.  `good` models a tuple with at
least five elements `(word, start_char, end_char, start_token, end_token)`;
`short` models a shorter (or empty, hence falsy) tuple. -/
inductive TrigEntry where
  | good (text : String) (start_char end_char start_token end_token : Int)
  | short
deriving Repr, DecidableEq

/-- One `report_dict` / `source_dict` of a FAMuS 1.0 instance.
`frame_trigger_span = none` models a missing `frame-trigger-span` key. -/
structure Doc10 where
  doctext : String
  role_annotations : List (String × List SpanEntry)
  frame_trigger_span : Option TrigEntry
deriving Repr, DecidableEq

/-- A raw FAMuS 1.0 instance (the fields read by `process_famus_10_instance`). -/
structure Instance10 where
  frame : String
  report_dict : Doc10
  source_dict : Doc10
deriving Repr, DecidableEq

/-- One processed ontology frame as stored in `frames.json` (the fields read by
`process_famus.py`). -/
structure FrameData where
  definition : String
  ancestors : List String
  descendants : List String
  all_roles : List (String × String)
deriving Repr, DecidableEq

/-- Model of `convert_role_annotations(role_dict)` (inner helper of
`process_famus_10_instance`): skip the structural key
`role-spans-indices-in-all-spans`, emit one annotation per span tuple of
length at least six, with `label = span_info[5] if span_info[5] else role`. -/
def convert_role_annotations (role_dict : List (String × List SpanEntry)) : List Annot :=
  role_dict.flatMap fun p =>
    if p.1 = "role-spans-indices-in-all-spans" then []
    else
      p.2.filterMap fun span_info =>
        match span_info with
        | .short => none
        | .good text sc ec st et label =>
            some { text := text
                   span := [sc, ec]
                   token_span := [st, et]
                   role := p.1
                   label := if label = "" then p.1 else label
                   role_definition := none }

/-- Model of `extract_trigger(text_dict, frame_name)` (inner helper of
`process_famus_10_instance`): absent or shorter-than-five trigger tuples give
`None`. -/
def extract_trigger (text_dict : Doc10) (frame_name : String) : Option Trigger :=
  match text_dict.frame_trigger_span with
  | none => none
  | some .short => none
  | some (.good text sc ec st et) =>
      some { text := text
             start_char := some sc
             end_char := some ec
             start_token := some st
             end_token := some et
             frame := frame_name }

/-- The ontology-enrichment loop shared by both instance processors:

    for ann in annotations:
        if ann['role'] in all_roles:
            ann['role_definition'] = all_roles[ann['role']]
-/
def enrich_annotations (all_roles : List (String × String)) (anns : List Annot) : List Annot :=
  anns.map fun ann =>
    match all_roles.lookup ann.role with
    | some d => { ann with role_definition := some d }
    | none => ann

/-- Model of `process_famus_10_instance(instance, ontology)`.  `ontology` is the frame
table; a `None` or empty ontology and an unknown frame all skip enrichment
(`if ontology and frame_name in ontology`), which coincides with a failed
lookup in the list model. -/
def process_famus_10_instance (inst : Instance10) (ontology : List (String × FrameData)) :
    SchemaInstance :=
  let frame_name := inst.frame
  let report_anns := convert_role_annotations inst.report_dict.role_annotations
  let source_anns := convert_role_annotations inst.source_dict.role_annotations
  let enriched :=
    match ontology.lookup frame_name with
    | some frame_data =>
        (enrich_annotations frame_data.all_roles report_anns,
         enrich_annotations frame_data.all_roles source_anns)
    | none => (report_anns, source_anns)
  { report :=
      { text := inst.report_dict.doctext
        annotations := enriched.1.map normalize_annotation
        trigger := normalize_trigger (extract_trigger inst.report_dict frame_name) }
    source :=
      { text := inst.source_dict.doctext
        annotations := enriched.2.map normalize_annotation
        trigger := normalize_trigger (extract_trigger inst.source_dict frame_name) } }

/-- The raw 1.1 trigger descriptor dictionary.  `none` fields model absent
keys (`.get` returns `None`); `tokens` and `frame` use the `.get` defaults
`[]` / `''`, so absence and the default coincide. -/
structure TriggerDict where
  tokens : List String
  start_token : Option Nat
  end_token : Option Nat
  frame : String
deriving Repr, DecidableEq

/-- One argument of a 1.1 template role.  `none` token indices model absent
`start_token` / `end_token` keys (checked with `'start_token' in arg`). -/
structure TemplateArg where
  start_token : Option Nat
  end_token : Option Nat
  tokens : List String
deriving Repr, DecidableEq

/-- One value of a 1.1 template mapping.  `arguments = none` models a
role-data dict without the `'arguments'` key. -/
structure RoleData where
  arguments : Option (List TemplateArg)
deriving Repr, DecidableEq

/-- A raw FAMuS 1.1 instance (the fields read by `process_famus_11_instance`).
`trigger = none` models a missing or empty (falsy) `trigger` dictionary. -/
structure Instance11 where
  trigger : Option TriggerDict
  report : List String
  source : List String
  report_template : List (String × RoleData)
  source_template : List (String × RoleData)
deriving Repr, DecidableEq

/-- Model of `convert_template(template_dict, tokens)` (inner helper of
`process_famus_11_instance`).  Both `start_token` and `end_token` are bounds
checked against `char_positions`, so no list access can fail; out-of-range
spans fall back to `start_char = 0, end_char = len(text)` where `text` is the
argument's own joined tokens. -/
def convert_template (template_dict : List (String × RoleData)) (tokens : List String) :
    List Annot :=
  let cp := char_positions tokens
  template_dict.flatMap fun p =>
    match p.2.arguments with
    | none => []
    | some args =>
        args.filterMap fun arg =>
          match arg.start_token, arg.end_token with
          | some start_token, some end_token =>
              let arg_tokens := arg.tokens
              let text := if arg_tokens.isEmpty then "" else joinSp arg_tokens
              let sc_ec : Int × Int :=
                if start_token < cp.length ∧ end_token < cp.length then
                  ((cp.getD start_token 0 : Int),
                   if end_token < tokens.length - 1 then
                     (cp.getD (end_token + 1) 0 : Int) - 2
                   else
                     (cp.getD end_token 0 : Int) + (tokens.getD end_token "").length - 1)
                else
                  (0, (text.length : Int))
              some { text := text
                     span := [sc_ec.1, sc_ec.2]
                     token_span := [(start_token : Int), (end_token : Int)]
                     role := p.1
                     label := p.1
                     role_definition := none }
          | _, _ => none

/-- Model of `extract_trigger_11(trigger_dict, tokens)` (inner helper of
`process_famus_11_instance`).  The guard checks only
`start_token < len(char_positions)`; in the `else` arm of the inner branch the
access `char_positions[end_token]` raises `IndexError` when
`end_token >= len(tokens)`, modelled by the outer `none`.  A failed guard
leaves `start_char = end_char = None` but still returns a trigger record. -/
def extract_trigger_11 (trigger_dict : Option TriggerDict) (tokens : List String) :
    Option (Option Trigger) :=
  match trigger_dict with
  | none => some none
  | some td =>
      let cp := char_positions tokens
      let chars : Option (Option Int × Option Int) :=
        match td.start_token, td.end_token with
        | some start_token, some end_token =>
            if start_token < cp.length then
              if end_token < tokens.length - 1 then
                some (some (cp.getD start_token 0 : Int),
                      some ((cp.getD (end_token + 1) 0 : Int) - 2))
              else if end_token < tokens.length then
                some (some (cp.getD start_token 0 : Int),
                      some ((cp.getD end_token 0 : Int) +
                              (tokens.getD end_token "").length - 1))
              else
                none
            else
              some (none, none)
        | _, _ => some (none, none)
      chars.map fun sc_ec =>
        some { text := joinSp td.tokens
               start_char := sc_ec.1
               end_char := sc_ec.2
               start_token := td.start_token.map Int.ofNat
               end_token := td.end_token.map Int.ofNat
               frame := td.frame }

/-- Model of `process_famus_11_instance(instance, ontology)`.  The outer `none` models
the `IndexError` that `extract_trigger_11` can raise; the source document's
trigger is the literal `None` (1.1 has no source trigger). -/
def process_famus_11_instance (inst : Instance11) (ontology : List (String × FrameData)) :
    Option SchemaInstance :=
  let trigger_data := inst.trigger
  let frame_name := match trigger_data with | some td => td.frame | none => ""
  let report_tokens := inst.report
  let source_tokens := inst.source
  let report_text := joinSp report_tokens
  let source_text := joinSp source_tokens
  match extract_trigger_11 trigger_data report_tokens with
  | none => none
  | some report_trigger =>
      let report_anns := convert_template inst.report_template report_tokens
      let source_anns := convert_template inst.source_template source_tokens
      let enriched :=
        match ontology.lookup frame_name with
        | some frame_data =>
            (enrich_annotations frame_data.all_roles report_anns,
             enrich_annotations frame_data.all_roles source_anns)
        | none => (report_anns, source_anns)
      some
        { report :=
            { text := report_text
              annotations := enriched.1.map normalize_annotation
              trigger := normalize_trigger report_trigger }
          source :=
            { text := source_text
              annotations := enriched.2.map normalize_annotation
              trigger := normalize_trigger none } }

/-- The record returned by `create_unified_instance`, plus the `split` key the
main loop adds afterwards (`''` until then). -/
structure Unified where
  instance_id : String
  frame : String
  frame_gloss : String
  frame_definition : String
  frame_ancestors : List String
  frame_descendants : List String
  has_differences : Bool
  v1_0 : SchemaInstance
  v1_1 : SchemaInstance
  split : String
deriving Repr, DecidableEq

/-- Model of `create_unified_instance(instance_id, frame, v10_data, v11_data, ontology)`.
`frame_gloss` is declared but never assigned in the code, so it stays `''`. -/
def create_unified_instance (instance_id frame : String) (v10_data v11_data : SchemaInstance)
    (ontology : List (String × FrameData)) : Unified :=
  let meta :=
    match ontology.lookup frame with
    | some frame_data => (frame_data.definition, frame_data.ancestors, frame_data.descendants)
    | none => ("", ([] : List String), ([] : List String))
  { instance_id := instance_id
    frame := frame
    frame_gloss := ""
    frame_definition := meta.1
    frame_ancestors := meta.2.1
    frame_descendants := meta.2.2
    has_differences := versions_differ v10_data v11_data
    v1_0 := v10_data
    v1_1 := v11_data
    split := "" }

/-- One value of the `v10_instances` dictionary built by `main`. -/
structure V10Info where
  data : SchemaInstance
  frame : String
  split : String
deriving Repr, DecidableEq

/-- The unification loop of `main`: for each FAMuS 1.0 instance, look up the
1.1 counterpart; when it is present build the unified record and set its
`split`, otherwise print a warning and skip the instance. -/
def assemble_corpus (v10_instances : List (String × V10Info))
    (v11_instances : List (String × SchemaInstance))
    (ontology : List (String × FrameData)) : List Unified :=
  v10_instances.filterMap fun p =>
    match v11_instances.lookup p.1 with
    | some v11_data =>
        some { create_unified_instance p.1 p.2.frame p.2.data v11_data ontology with
                 split := p.2.split }
    | none => none

end Famus

namespace Ontology

open Famus

/-- One raw ontology frame as read by `create_hierarchy_index`
(`frame_data.get('ancestors', [])` / `frame_data.get('descendants', [])`:
an absent key coincides with the empty default). -/
structure OntFrame where
  ancestors : List String
  descendants : List String
deriving Repr, DecidableEq

/-- Python string comparison on code points, on the character lists. -/
def charsLe : List Char → List Char → Bool
  | [], _ => true
  | _ :: _, [] => false
  | a :: as, b :: bs =>
      if a.toNat < b.toNat then true
      else if b.toNat < a.toNat then false
      else charsLe as bs

/-- Comparison `a <= b` for Python strings (lexicographic on code points). -/
def strLe (a b : String) : Bool :=
  charsLe a.toList b.toList

/-- Insert into a sorted list, modelling one step of `sorted`. -/
def insertSorted (x : String) : List String → List String
  | [] => [x]
  | y :: ys => if strLe x y then x :: y :: ys else y :: insertSorted x ys

/-- Python `sorted(list(s))` for a set `s`: the model materialises the set as a
deduplicated list and sorts it by the code-point order. -/
def sortedSet (l : List String) : List String :=
  l.dedup.foldr insertSorted []

/-- The hierarchy index `{roots, children, parents}`.  The two defaultdicts are
modelled as total functions returning `[]` for frames never inserted. -/
structure HierarchyIndex where
  roots : List String
  children : String → List String
  parents : String → List String

/-- Model of `create_hierarchy_index(frames)`: a frame with no ancestors is a root; for
each ancestor `A` of frame `F`, add `F` to `children[A]` and `A` to
`parents[F]`; descendants are not read; every accumulated set is finally
deduplicated and sorted. -/
def create_hierarchy_index (frames : List (String × OntFrame)) : HierarchyIndex :=
  { roots := sortedSet ((frames.filter fun p => p.2.ancestors = []).map fun p => p.1)
    children := fun a =>
      sortedSet ((frames.filter fun p => a ∈ p.2.ancestors).map fun p => p.1)
    parents := fun f =>
      sortedSet ((frames.filter fun p => p.1 = f).flatMap fun p => p.2.ancestors) }

end Ontology

namespace Famus

lemma char_positions_from_length (l : List String) :
    ∀ c, (char_positions_from c l).length = l.length := by
  induction l with
  | nil => intro c; rfl
  | cons t rest ih => intro c; simp [char_positions_from, ih]

lemma char_positions_length (tokens : List String) :
    (char_positions tokens).length = tokens.length :=
  char_positions_from_length tokens 0

lemma toList_append (a b : String) : (a ++ b).toList = a.toList ++ b.toList := by
  simp [String.toList]

lemma char_positions_from_single (c : Nat) (t : String) :
    char_positions_from c [t] = [c] := rfl

lemma char_positions_from_cons_cons (c : Nat) (t r : String) (rs : List String) :
    char_positions_from c (t :: r :: rs)
      = c :: char_positions_from (c + t.length + 1) (r :: rs) := rfl

lemma joinSp_cons_cons (t r : String) (rs : List String) :
    joinSp (t :: r :: rs) = t ++ " " ++ joinSp (r :: rs) := rfl

lemma char_positions_from_getD (l : List String) :
    ∀ (c i : Nat), i < l.length →
      (char_positions_from c l).getD i 0 = c + ((l.take i).map String.length).sum + i := by
  induction l with
  | nil => intro c i h; simp at h
  | cons t rest ih =>
    intro c i h
    cases i with
    | zero => cases rest <;> simp [char_positions_from_single, char_positions_from_cons_cons]
    | succ j =>
      cases rest with
      | nil => simp at h
      | cons r rs =>
        have hj : j < (r :: rs).length := by simpa using h
        rw [char_positions_from_cons_cons, List.getD_cons_succ, ih _ j hj]
        simp only [List.take_succ_cons, List.map_cons, List.sum_cons]
        omega

lemma char_positions_getD (tokens : List String) (i : Nat) (h : i < tokens.length) :
    (char_positions tokens).getD i 0 = ((tokens.take i).map String.length).sum + i := by
  simpa using char_positions_from_getD tokens 0 i h

lemma char_positions_from_eq_map (l : List String) :
    ∀ c, char_positions_from c l = (char_positions l).map (fun p => p + c) := by
  induction l with
  | nil => intro c; rfl
  | cons t rest ih =>
    intro c
    cases rest with
    | nil =>
      rw [char_positions_from_single, char_positions, char_positions_from_single]
      simp
    | cons r rs =>
      rw [char_positions_from_cons_cons, char_positions, char_positions_from_cons_cons,
        List.map_cons]
      refine List.cons_eq_cons.mpr ⟨by omega, ?_⟩
      rw [ih (c + t.length + 1), ih (0 + t.length + 1), List.map_map]
      have hfun : (fun p => p + (c + t.length + 1))
          = ((fun p => p + c) ∘ fun p => p + (0 + t.length + 1)) := by
        funext p
        simp only [Function.comp_apply]
        omega
      rw [hfun]

lemma getD_map_add (l : List Nat) (k i : Nat) (h : i < l.length) :
    (l.map (fun p => p + k)).getD i 0 = l.getD i 0 + k := by
  simp [List.getD_eq_getElem?_getD, List.getElem?_map, List.getElem?_eq_getElem, h]

lemma joinSp_take (tokens : List String) :
    ∀ i, i < tokens.length →
      ((joinSp tokens).toList.drop ((char_positions tokens).getD i 0)).take
          (tokens.getD i "").length = (tokens.getD i "").toList := by
  induction tokens with
  | nil => intro i h; simp at h
  | cons t rest ih =>
    intro i h
    cases rest with
    | nil =>
      have hi : i = 0 := by simpa using h
      subst hi
      rw [show joinSp [t] = t from rfl, char_positions, char_positions_from_single]
      simp only [List.getD_cons_zero, List.drop_zero]
      rw [show t.length = t.toList.length from rfl, List.take_length]
    | cons r rs =>
      cases i with
      | zero =>
        rw [joinSp_cons_cons, char_positions, char_positions_from_cons_cons]
        simp only [List.getD_cons_zero, List.drop_zero]
        rw [toList_append, toList_append, List.append_assoc,
          show t.length = t.toList.length from rfl]
        simp
      | succ j =>
        have hj : j < (r :: rs).length := by simpa using h
        rw [joinSp_cons_cons, char_positions, char_positions_from_cons_cons,
          List.getD_cons_succ, List.getD_cons_succ]
        rw [char_positions_from_eq_map,
          getD_map_add _ _ _ (by rw [char_positions_length]; exact hj)]
        rw [toList_append, toList_append]
        have hlen : (t.toList ++ " ".toList).length = t.length + 1 := by
          rw [List.length_append, show t.toList.length = t.length from rfl,
            show (" ".toList).length = 1 from rfl]
        rw [show (char_positions (r :: rs)).getD j 0 + (0 + t.length + 1)
              = (t.toList ++ " ".toList).length + (char_positions (r :: rs)).getD j 0 by
            rw [hlen]; omega]
        rw [List.drop_append]
        exact ih j hj

lemma annotations_differ_comm (l1 l2 : List NormAnnot) :
    annotations_differ l1 l2 = annotations_differ l2 l1 := by
  unfold annotations_differ
  by_cases h : l1.length = l2.length
  · rw [if_neg (by simp [h]), if_neg (by simp [h])]
    exact decide_eq_decide.mpr ne_comm
  · rw [if_pos h, if_pos (Ne.symm h)]

lemma triggers_differ_comm (t1 t2 : Option Trigger) :
    triggers_differ t1 t2 = triggers_differ t2 t1 := by
  cases t1 <;> cases t2 <;> simp [triggers_differ, ne_comm]

lemma versions_differ_eq_or (A B : SchemaInstance) :
    versions_differ A B =
      (annotations_differ A.report.annotations B.report.annotations ||
        annotations_differ A.source.annotations B.source.annotations ||
        triggers_differ A.report.trigger B.report.trigger ||
        triggers_differ A.source.trigger B.source.trigger) := by
  unfold versions_differ
  cases annotations_differ A.report.annotations B.report.annotations <;>
    cases annotations_differ A.source.annotations B.source.annotations <;>
    cases triggers_differ A.report.trigger B.report.trigger <;>
    cases triggers_differ A.source.trigger B.source.trigger <;> simp

lemma annotations_differ_eq_false (l1 l2 : List NormAnnot)
    (hlen : l1.length = l2.length)
    (hset : (l1.map annKey).toFinset = (l2.map annKey).toFinset) :
    annotations_differ l1 l2 = false := by
  unfold annotations_differ
  rw [if_neg (by simp [hlen])]
  simp [hset]

lemma triggers_differ_some_none (t : Trigger) :
    triggers_differ (some t) none = true := by
  simp [triggers_differ]

lemma has_differences_eq (instance_id frame : String) (A B : SchemaInstance)
    (ontology : List (String × FrameData)) :
    (create_unified_instance instance_id frame A B ontology).has_differences
      = versions_differ A B := rfl

lemma role_definition_none_of_convert (rd : List (String × List SpanEntry)) :
    ∀ a ∈ convert_role_annotations rd, a.role_definition = none := by
  intro a ha
  rw [convert_role_annotations, List.mem_flatMap] at ha
  obtain ⟨p, _, hp⟩ := ha
  by_cases hk : p.1 = "role-spans-indices-in-all-spans"
  · rw [if_pos hk] at hp
    simp at hp
  · rw [if_neg hk, List.mem_filterMap] at hp
    obtain ⟨si, _, hsi⟩ := hp
    cases si with
    | short => simp at hsi
    | good text sc ec st et label =>
        simp only [Option.some.injEq] at hsi
        rw [← hsi]

lemma role_definition_none_of_template (tpl : List (String × RoleData))
    (tokens : List String) :
    ∀ a ∈ convert_template tpl tokens, a.role_definition = none := by
  intro a ha
  rw [convert_template, List.mem_flatMap] at ha
  obtain ⟨p, _, hp⟩ := ha
  cases harg : p.2.arguments with
  | none => rw [harg] at hp; simp at hp
  | some args =>
      rw [harg, List.mem_filterMap] at hp
      obtain ⟨arg, _, hargm⟩ := hp
      cases hs : arg.start_token with
      | none => rw [hs] at hargm; simp at hargm
      | some s =>
          cases he : arg.end_token with
          | none => rw [hs, he] at hargm; simp at hargm
          | some e =>
              rw [hs, he] at hargm
              simp only [Option.some.injEq] at hargm
              rw [← hargm]

lemma role_definition_of_norm_enrich (table : List (String × String)) (anns : List Annot)
    (hn : ∀ r ∈ anns, r.role_definition = none) :
    ∀ a ∈ (enrich_annotations table anns).map normalize_annotation,
      a.role_definition = ((table.lookup a.role).getD "") := by
  intro a ha
  rw [List.mem_map] at ha
  obtain ⟨b, hb, hba⟩ := ha
  rw [enrich_annotations, List.mem_map] at hb
  obtain ⟨r, hr, hrb⟩ := hb
  cases hlk : table.lookup r.role with
  | some d =>
      rw [hlk] at hrb
      rw [← hba, ← hrb]
      simp [ normalize_annotation, hlk]
  | none =>
      rw [hlk] at hrb
      rw [← hba, ← hrb]
      simp [ normalize_annotation, hlk, hn r hr]

lemma role_definition_of_norm (anns : List Annot)
    (hn : ∀ r ∈ anns, r.role_definition = none) :
    ∀ a ∈ anns.map normalize_annotation, a.role_definition = "" := by
  intro a ha
  rw [List.mem_map] at ha
  obtain ⟨r, hr, hra⟩ := ha
  rw [← hra]
  simp [ normalize_annotation, hn r hr]

/-- The role-definition table the enrichment step consults: the frame's
`all_roles` when the frame is known to the ontology, empty otherwise. -/
def role_table (frame_name : String) (ontology : List (String × FrameData)) :
    List (String × String) :=
  match ontology.lookup frame_name with
  | some frame_data => frame_data.all_roles
  | none => []

lemma assemble_corpus_lookup (v10_instances : List (String × V10Info))
    (v11_instances : List (String × SchemaInstance))
    (ontology : List (String × FrameData)) :
    ∀ u ∈ assemble_corpus v10_instances v11_instances ontology,
      (v11_instances.lookup u.instance_id).isSome := by
  intro u hu
  rw [assemble_corpus, List.mem_filterMap] at hu
  obtain ⟨p, _, hp⟩ := hu
  cases hlk : v11_instances.lookup p.1 with
  | none => rw [hlk] at hp; simp at hp
  | some d =>
      rw [hlk] at hp
      simp only [Option.some.injEq] at hp
      have : u.instance_id = p.1 := by rw [← hp]; rfl
      rw [this, hlk]
      rfl

end Famus

namespace Ontology

lemma mem_insertSorted (a x : String) (l : List String) :
    a ∈ insertSorted x l ↔ a = x ∨ a ∈ l := by
  induction l with
  | nil => simp [insertSorted]
  | cons y ys ih =>
      rw [insertSorted]
      by_cases h : strLe x y
      · rw [if_pos h]
        simp
      · rw [if_neg h]
        simp only [List.mem_cons, ih]
        tauto

lemma mem_sortedSet (a : String) (l : List String) : a ∈ sortedSet l ↔ a ∈ l := by
  rw [sortedSet, ← List.mem_dedup (l := l)]
  induction l.dedup with
  | nil => simp
  | cons y ys ih => simp [mem_insertSorted, ih]

lemma mem_children_iff (frames : List (String × OntFrame)) (P F : String) :
    F ∈ (create_hierarchy_index frames).children P ↔
      ∃ fd, (F, fd) ∈ frames ∧ P ∈ fd.ancestors := by
  rw [create_hierarchy_index]
  simp only [mem_sortedSet, List.mem_map, List.mem_filter]
  constructor
  · rintro ⟨p, ⟨hp, hanc⟩, hfst⟩
    refine ⟨p.2, ?_, by simpa using hanc⟩
    rw [← hfst]
    exact hp
  · rintro ⟨fd, hmem, hanc⟩
    exact ⟨(F, fd), ⟨hmem, by simpa using hanc⟩, rfl⟩

lemma mem_roots_iff (frames : List (String × OntFrame)) (F : String) :
    F ∈ (create_hierarchy_index frames).roots ↔
      ∃ fd, (F, fd) ∈ frames ∧ fd.ancestors = [] := by
  rw [create_hierarchy_index]
  simp only [mem_sortedSet, List.mem_map, List.mem_filter]
  constructor
  · rintro ⟨p, ⟨hp, hanc⟩, hfst⟩
    refine ⟨p.2, ?_, by simpa using hanc⟩
    rw [← hfst]
    exact hp
  · rintro ⟨fd, hmem, hanc⟩
    exact ⟨(F, fd), ⟨hmem, by simpa using hanc⟩, rfl⟩

lemma mem_parents_iff (frames : List (String × OntFrame)) (F A : String) :
    A ∈ (create_hierarchy_index frames).parents F ↔
      ∃ fd, (F, fd) ∈ frames ∧ A ∈ fd.ancestors := by
  rw [create_hierarchy_index]
  simp only [mem_sortedSet, List.mem_flatMap, List.mem_filter]
  constructor
  · rintro ⟨p, ⟨hp, hfst⟩, hanc⟩
    have hF : p.1 = F := by simpa using hfst
    refine ⟨p.2, ?_, hanc⟩
    rw [← hF]
    exact hp
  · rintro ⟨fd, hmem, hanc⟩
    exact ⟨(F, fd), ⟨hmem, by simp⟩, hanc⟩

lemma filter_roots_ignores (g : String × OntFrame → List String)
    (frames : List (String × OntFrame)) :
    (((frames.map fun p => (p.1, { p.2 with descendants := g p })).filter
        fun p => p.2.ancestors = []).map fun p => p.1)
      = ((frames.filter fun p => p.2.ancestors = []).map fun p => p.1) := by
  induction frames with
  | nil => rfl
  | cons p l ih =>
      simp only [List.map_cons, List.filter_cons]
      by_cases h : p.2.ancestors = []
      · simp [h, ih]
      · simp [h, ih]

lemma filter_children_ignores (g : String × OntFrame → List String) (a : String)
    (frames : List (String × OntFrame)) :
    (((frames.map fun p => (p.1, { p.2 with descendants := g p })).filter
        fun p => a ∈ p.2.ancestors).map fun p => p.1)
      = ((frames.filter fun p => a ∈ p.2.ancestors).map fun p => p.1) := by
  induction frames with
  | nil => rfl
  | cons p l ih =>
      simp only [List.map_cons, List.filter_cons]
      by_cases h : a ∈ p.2.ancestors
      · simp [h, ih]
      · simp [h, ih]

lemma filter_parents_ignores (g : String × OntFrame → List String) (f : String)
    (frames : List (String × OntFrame)) :
    (((frames.map fun p => (p.1, { p.2 with descendants := g p })).filter
        fun p => p.1 = f).flatMap fun p => p.2.ancestors)
      = ((frames.filter fun p => p.1 = f).flatMap fun p => p.2.ancestors) := by
  induction frames with
  | nil => rfl
  | cons p l ih =>
      simp only [List.map_cons, List.filter_cons]
      by_cases h : p.1 = f
      · simp [h, ih]
      · simp [h, ih]

lemma hierarchy_ignores_descendants (frames : List (String × OntFrame))
    (g : String × OntFrame → List String) :
    (create_hierarchy_index
        (frames.map fun p => (p.1, { p.2 with descendants := g p }))).roots
        = (create_hierarchy_index frames).roots ∧
    (∀ s, (create_hierarchy_index
        (frames.map fun p => (p.1, { p.2 with descendants := g p }))).children s
        = (create_hierarchy_index frames).children s) ∧
    (∀ s, (create_hierarchy_index
        (frames.map fun p => (p.1, { p.2 with descendants := g p }))).parents s
        = (create_hierarchy_index frames).parents s) := by
  refine ⟨?_, fun s => ?_, fun s => ?_⟩
  · simp only [create_hierarchy_index]
    rw [filter_roots_ignores]
  · simp only [create_hierarchy_index]
    rw [filter_children_ignores]
  · simp only [create_hierarchy_index]
    rw [filter_parents_ignores]

end Ontology

open Famus Ontology

/-- The two-frame ontology `{A: ancestors=[]}, {B: ancestors=["A"]}` of the
concrete hierarchy example (`A` additionally lists `B` as a descendant, which
must not matter). -/
def c4Frames : List (String × OntFrame) :=
  [("A", { ancestors := [], descendants := ["B"] }),
   ("B", { ancestors := ["A"], descendants := [] })]

/-- C4: for every ontology table, `children[P]` contains `F` iff `P` appears in
`F`'s ancestors list, a frame is a root iff its ancestors list is empty, and
descendant lists never add edges (replacing every frame's descendants leaves
the index unchanged).  In particular, for `{A: ancestors=[]},
{B: ancestors=["A"]}` the result is `roots=["A"]`, `children["A"]=["B"]`,
`parents["B"]=["A"]`, and `B` is not a root. -/
theorem spec_C4 :
    (∀ (frames : List (String × OntFrame)) (P F : String),
        F ∈ (create_hierarchy_index frames).children P ↔
          ∃ fd, (F, fd) ∈ frames ∧ P ∈ fd.ancestors) ∧
    (∀ (frames : List (String × OntFrame)) (F : String),
        F ∈ (create_hierarchy_index frames).roots ↔
          ∃ fd, (F, fd) ∈ frames ∧ fd.ancestors = []) ∧
    (∀ (frames : List (String × OntFrame)) (g : String × OntFrame → List String),
        (create_hierarchy_index
            (frames.map fun p => (p.1, { p.2 with descendants := g p }))).roots
            = (create_hierarchy_index frames).roots ∧
        (∀ s, (create_hierarchy_index
            (frames.map fun p => (p.1, { p.2 with descendants := g p }))).children s
            = (create_hierarchy_index frames).children s) ∧
        (∀ s, (create_hierarchy_index
            (frames.map fun p => (p.1, { p.2 with descendants := g p }))).parents s
            = (create_hierarchy_index frames).parents s)) ∧
    ((create_hierarchy_index c4Frames).roots = ["A"] ∧
      (create_hierarchy_index c4Frames).children "A" = ["B"] ∧
      (create_hierarchy_index c4Frames).parents "B" = ["A"] ∧
      "B" ∉ (create_hierarchy_index c4Frames).roots) :=
  ⟨mem_children_iff, mem_roots_iff, hierarchy_ignores_descendants, by decide⟩

/-- C5: the diff comparison is symmetric, both at the level of
`versions_differ` and of the `has_differences` flag stored by
`create_unified_instance`. -/
theorem spec_C5 (A B : SchemaInstance) (instance_id frame : String)
    (ontology : List (String × FrameData)) :
    versions_differ A B = versions_differ B A ∧
    (create_unified_instance instance_id frame A B ontology).has_differences
      = (create_unified_instance instance_id frame B A ontology).has_differences := by
  have hsym : versions_differ A B = versions_differ B A := by
    unfold versions_differ
    rw [annotations_differ_comm A.report.annotations B.report.annotations,
      annotations_differ_comm A.source.annotations B.source.annotations,
      triggers_differ_comm A.report.trigger B.report.trigger,
      triggers_differ_comm A.source.trigger B.source.trigger]
  exact ⟨hsym, by rw [has_differences_eq, has_differences_eq, hsym]⟩

lemma getD_eq_get (l : List String) (j : Nat) (h : j < l.length) :
    l.getD j "" = l.get ⟨j, h⟩ := by
  simp [List.getD_eq_getElem?_getD, List.getElem?_eq_getElem, h, List.get_eq_getElem]

lemma convert_template_mem_span (tpl : List (String × RoleData)) (tokens : List String)
    (a : Annot) (s e : Nat) (ha : a ∈ convert_template tpl tokens)
    (hts : a.token_span = [(s : Int), (e : Int)]) :
    a.span =
      if s < (char_positions tokens).length ∧ e < (char_positions tokens).length then
        [((char_positions tokens).getD s 0 : Int),
         if e < tokens.length - 1 then ((char_positions tokens).getD (e + 1) 0 : Int) - 2
         else ((char_positions tokens).getD e 0 : Int) + (tokens.getD e "").length - 1]
      else [0, (a.text.length : Int)] := by
  rw [convert_template, List.mem_flatMap] at ha
  obtain ⟨p, _, hp⟩ := ha
  cases harg : p.2.arguments with
  | none => rw [harg] at hp; simp at hp
  | some args =>
      rw [harg, List.mem_filterMap] at hp
      obtain ⟨arg, _, hargm⟩ := hp
      cases hs' : arg.start_token with
      | none => rw [hs'] at hargm; simp at hargm
      | some s' =>
          cases he' : arg.end_token with
          | none => rw [hs', he'] at hargm; simp at hargm
          | some e' =>
              rw [hs', he'] at hargm
              simp only [Option.some.injEq] at hargm
              subst hargm
              dsimp only at hts ⊢
              simp only [List.cons.injEq, Nat.cast_inj, and_true] at hts
              obtain ⟨hs2, he2⟩ := hts
              subst hs2
              subst he2
              by_cases hc : s' < (char_positions tokens).length ∧
                  e' < (char_positions tokens).length
              · rw [if_pos hc, if_pos hc]
              · rw [if_neg hc, if_neg hc]

/-- C6: for every non-empty token sequence, the computed per-token start
offsets satisfy `offset[0] = 0` and
`offset[i] = offset[i-1] + len(token[i-1]) + 1` for `i > 0`; equivalently
`offset[i]` is the sum of the lengths of `tokens[0..i-1]` plus `i`, and the
text reconstructed by joining the tokens with single spaces carries token `i`
exactly at position `offset[i]`. -/
theorem spec_C6 (tokens : List String) (h : tokens ≠ []) :
    (char_positions tokens).length = tokens.length ∧
    (char_positions tokens).getD 0 0 = 0 ∧
    (∀ i, 0 < i → i < tokens.length →
      (char_positions tokens).getD i 0
        = (char_positions tokens).getD (i - 1) 0 + (tokens.getD (i - 1) "").length + 1) ∧
    (∀ i, i < tokens.length →
      (char_positions tokens).getD i 0 = ((tokens.take i).map String.length).sum + i) ∧
    (∀ i, i < tokens.length →
      ((joinSp tokens).toList.drop ((char_positions tokens).getD i 0)).take
          (tokens.getD i "").length = (tokens.getD i "").toList) := by
  refine ⟨char_positions_length tokens, ?_, ?_,
    fun i hi => char_positions_getD tokens i hi, fun i hi => joinSp_take tokens i hi⟩
  · have h0 : 0 < tokens.length := List.length_pos.mpr h
    rw [char_positions_getD tokens 0 h0]
    simp
  · intro i h0 hi
    obtain ⟨j, rfl⟩ : ∃ j, i = j + 1 := ⟨i - 1, by omega⟩
    have hj : j < tokens.length := by omega
    simp only [Nat.add_sub_cancel]
    rw [char_positions_getD tokens (j + 1) hi, char_positions_getD tokens j (by omega)]
    have hsum := List.sum_take_succ (tokens.map String.length) j (by simpa using hj)
    rw [← List.map_take, ← List.map_take, List.getElem_map] at hsum
    have hg : tokens.getD j "" = tokens[j] := by
      simp [List.getD_eq_getElem?_getD, List.getElem?_eq_getElem, hj]
    rw [hsum, hg]
    omega

/-- Closed witness instantiating `spec_C6` at a concrete token sequence. -/
theorem spec_C6_witness :
    (char_positions ["ab", "c"]).length = (["ab", "c"] : List String).length ∧
    (char_positions ["ab", "c"]).getD 0 0 = 0 ∧
    (∀ i, 0 < i → i < (["ab", "c"] : List String).length →
      (char_positions ["ab", "c"]).getD i 0
        = (char_positions ["ab", "c"]).getD (i - 1) 0
            + ((["ab", "c"] : List String).getD (i - 1) "").length + 1) ∧
    (∀ i, i < (["ab", "c"] : List String).length →
      (char_positions ["ab", "c"]).getD i 0
        = (((["ab", "c"] : List String).take i).map String.length).sum + i) ∧
    (∀ i, i < (["ab", "c"] : List String).length →
      ((joinSp ["ab", "c"]).toList.drop ((char_positions ["ab", "c"]).getD i 0)).take
          ((["ab", "c"] : List String).getD i "").length
        = ((["ab", "c"] : List String).getD i "").toList) :=
  spec_C6 ["ab", "c"] (by decide)

/-- C7: every annotation `convert_template` produces from an in-range token
span `(s, e)` carries `start_char = offset[s]` and
`end_char = offset[e] + len(token[e]) - 1` when `e` is the last index, else
`offset[e+1] - 2`; concretely, for tokens `["The","dog","ran","fast"]` and
token span `(1, 2)` the char span is `[4, 10]` and the inclusive substring of
the reconstructed text `"The dog ran fast"` at `[4, 10]` is `"dog ran"`. -/
theorem spec_C7 :
    (∀ (tpl : List (String × RoleData)) (tokens : List String) (a : Annot) (s e : Nat),
        a ∈ convert_template tpl tokens →
        a.token_span = [(s : Int), (e : Int)] →
        s < (char_positions tokens).length →
        e < (char_positions tokens).length →
        a.span =
          [((char_positions tokens).getD s 0 : Int),
           if e < tokens.length - 1 then ((char_positions tokens).getD (e + 1) 0 : Int) - 2
           else ((char_positions tokens).getD e 0 : Int) + (tokens.getD e "").length - 1]) ∧
    (convert_template
        [("R", { arguments := some [{ start_token := some 1, end_token := some 2,
                                      tokens := ["dog", "ran"] }] })]
        ["The", "dog", "ran", "fast"]).map (fun a => (a.text, a.span))
      = [("dog ran", [(4 : Int), 10])] ∧
    char_positions ["The", "dog", "ran", "fast"] = [0, 4, 8, 12] ∧
    joinSp ["The", "dog", "ran", "fast"] = "The dog ran fast" ∧
    ((joinSp ["The", "dog", "ran", "fast"]).toList.drop 4).take (10 - 4 + 1)
      = "dog ran".toList := by
  refine ⟨?_, by decide, by decide, by decide, by decide⟩
  intro tpl tokens a s e ha hts hs he
  rw [convert_template_mem_span tpl tokens a s e ha hts, if_pos ⟨hs, he⟩]

/-- Closed witness instantiating the universal part of `spec_C7` at the
concrete round-trip input. -/
theorem spec_C7_witness :
    ({ text := "dog ran", span := [4, 10], token_span := [1, 2], role := "R", label := "R",
       role_definition := none } : Annot).span =
      [((char_positions ["The", "dog", "ran", "fast"]).getD 1 0 : Int),
       if 2 < (["The", "dog", "ran", "fast"] : List String).length - 1 then
         ((char_positions ["The", "dog", "ran", "fast"]).getD (2 + 1) 0 : Int) - 2
       else ((char_positions ["The", "dog", "ran", "fast"]).getD 2 0 : Int)
              + ((["The", "dog", "ran", "fast"] : List String).getD 2 "").length - 1] :=
  spec_C7.1
    [("R", { arguments := some [{ start_token := some 1, end_token := some 2,
                                  tokens := ["dog", "ran"] }] })]
    ["The", "dog", "ran", "fast"]
    { text := "dog ran", span := [4, 10], token_span := [1, 2], role := "R", label := "R",
      role_definition := none }
    1 2 (by decide) (by decide) (by decide) (by decide)

/-- Counterexample to C2 as stated: for tokens `["ab"]` (document text `"ab"`,
length 2) an argument with out-of-range `end_token = 5` and its own tokens
`["xy","z"]` falls back to span `[0, 4]`, where `4` is the length of the
argument's own joined text `"xy z"`, not of the document text; and a trigger
descriptor with in-range `start_token = 0` but out-of-range `end_token = 5`
makes the offset computation fail (`IndexError`) instead of falling back. -/
theorem spec_C2_cex :
    (convert_template
        [("R", { arguments := some [{ start_token := some 0, end_token := some 5,
                                      tokens := ["xy", "z"] }] })]
        ["ab"]).map (fun a => a.span) = [[(0 : Int), 4]] ∧
    (joinSp ["ab"]).length = 2 ∧ (4 : Int) ≠ 2 ∧
    extract_trigger_11
        (some { tokens := ["w"], start_token := some 0, end_token := some 5, frame := "F" })
        ["a"] = none := by
  decide

/-- C2 (amended): an annotation argument whose token span is out of range does
not fail and falls back to `start_char = 0, end_char = len(text)` where `text`
is the argument's own joined tokens (not the document text); a trigger
descriptor with a missing `start_token`/`end_token` or an out-of-range
`start_token` yields a present trigger with `start_char = end_char = None`;
a trigger with in-range `start_token` but `end_token` at or beyond the token
count fails (`IndexError`) instead of falling back. -/
theorem spec_C2 :
    (∀ (tpl : List (String × RoleData)) (tokens : List String) (a : Annot) (s e : Nat),
        a ∈ convert_template tpl tokens →
        a.token_span = [(s : Int), (e : Int)] →
        ¬(s < (char_positions tokens).length ∧ e < (char_positions tokens).length) →
        a.span = [0, (a.text.length : Int)]) ∧
    (∀ (td : TriggerDict) (tokens : List String),
        (td.start_token = none ∨ td.end_token = none ∨
          ∃ s, td.start_token = some s ∧ ¬ s < (char_positions tokens).length) →
        extract_trigger_11 (some td) tokens =
          some (some { text := joinSp td.tokens, start_char := none, end_char := none,
                       start_token := td.start_token.map Int.ofNat,
                       end_token := td.end_token.map Int.ofNat, frame := td.frame })) ∧
    (∀ (td : TriggerDict) (tokens : List String) (s e : Nat),
        td.start_token = some s → td.end_token = some e →
        s < (char_positions tokens).length → tokens.length ≤ e →
        extract_trigger_11 (some td) tokens = none) := by
  refine ⟨?_, ?_, ?_⟩
  · intro tpl tokens a s e ha hts hc
    rw [convert_template_mem_span tpl tokens a s e ha hts, if_neg hc]
  · intro td tokens h
    rcases h with h | h | ⟨s, hs, hnl⟩
    · cases het : td.end_token <;> simp [extract_trigger_11, h, het]
    · cases hst : td.start_token <;> simp [extract_trigger_11, h, hst]
    · cases het : td.end_token <;> simp [extract_trigger_11, hs, het, hnl]
  · intro td tokens s e hst het hs hle
    have h1 : ¬ e < tokens.length - 1 := by omega
    have h2 : ¬ e < tokens.length := by omega
    simp [extract_trigger_11, hst, het, hs, h1, h2]

/-- The annotation the out-of-range fallback produces in the `spec_C2_cex`
configuration. -/
def c2a : Annot :=
  { text := "xy z", span := [0, 4], token_span := [0, 5], role := "R", label := "R",
    role_definition := none }

/-- Closed witness instantiating every part of `spec_C2` at concrete inputs. -/
theorem spec_C2_witness :
    (c2a.span = [0, (c2a.text.length : Int)]) ∧
    extract_trigger_11
        (some { tokens := ["w"], start_token := none, end_token := some 0, frame := "F" })
        ["a"]
      = some (some { text := "w", start_char := none, end_char := none,
                     start_token := none, end_token := some 0, frame := "F" }) ∧
    extract_trigger_11
        (some { tokens := ["w"], start_token := some 0, end_token := some 5, frame := "F" })
        ["a"] = none :=
  ⟨spec_C2.1
      [("R", { arguments := some [{ start_token := some 0, end_token := some 5,
                                    tokens := ["xy", "z"] }] })]
      ["ab"] c2a 0 5 (by decide) (by decide) (by decide),
   spec_C2.2.1 { tokens := ["w"], start_token := none, end_token := some 0, frame := "F" }
      ["a"] (Or.inl rfl),
   spec_C2.2.2 { tokens := ["w"], start_token := some 0, end_token := some 5, frame := "F" }
      ["a"] 0 5 rfl rfl (by decide) (by decide)⟩

/-- C8: a FAMuS 1.0 instance whose `instance_id` has no FAMuS 1.1 counterpart
is skipped: the unification loop produces exactly the records of the remaining
instances (processing continues), and no output record carries the skipped
`instance_id`. -/
theorem spec_C8 (pre post : List (String × V10Info)) (instance_id : String) (info : V10Info)
    (v11_instances : List (String × SchemaInstance)) (ontology : List (String × FrameData))
    (h : v11_instances.lookup instance_id = none) :
    assemble_corpus (pre ++ (instance_id, info) :: post) v11_instances ontology
      = assemble_corpus pre v11_instances ontology
          ++ assemble_corpus post v11_instances ontology ∧
    ∀ u ∈ assemble_corpus (pre ++ (instance_id, info) :: post) v11_instances ontology,
      u.instance_id ≠ instance_id := by
  constructor
  · simp only [assemble_corpus, List.filterMap_append, List.filterMap_cons, h]
  · intro u hu heq
    have hsome := assemble_corpus_lookup _ _ _ u hu
    rw [heq, h] at hsome
    simp at hsome

/-- A concrete FAMuS 1.0 entry for the `spec_C8` witness. -/
def c8Info : V10Info :=
  { data := { report := { text := "", annotations := [], trigger := none },
              source := { text := "", annotations := [], trigger := none } }
    frame := "f"
    split := "train" }

/-- Closed witness instantiating `spec_C8` at a singleton corpus with no 1.1
counterpart. -/
theorem spec_C8_witness :
    assemble_corpus ([] ++ ("i", c8Info) :: []) [] []
      = assemble_corpus [] [] [] ++ assemble_corpus [] [] [] ∧
    ∀ u ∈ assemble_corpus ([] ++ ("i", c8Info) :: []) [] [], u.instance_id ≠ "i" :=
  spec_C8 [] [] "i" c8Info [] [] rfl

/-- C9: the normalized FAMuS 1.1 source document's trigger is always absent
(the code hard-wires `None`), so any unified pair whose FAMuS 1.0 source
document has a trigger is reported with `has_differences = true`. -/
theorem spec_C9 :
    (∀ (inst : Instance11) (ontology : List (String × FrameData)) (si : SchemaInstance),
        process_famus_11_instance inst ontology = some si → si.source.trigger = none) ∧
    (∀ (instance_id frame : String) (inst : Instance11)
        (ontology : List (String × FrameData)) (si v10 : SchemaInstance) (t : Trigger),
        process_famus_11_instance inst ontology = some si →
        v10.source.trigger = some t →
        (create_unified_instance instance_id frame v10 si ontology).has_differences
          = true) := by
  have hsrc : ∀ (inst : Instance11) (ontology : List (String × FrameData))
      (si : SchemaInstance),
      process_famus_11_instance inst ontology = some si → si.source.trigger = none := by
    intro inst ontology si h
    simp only [process_famus_11_instance] at h
    cases hext : extract_trigger_11 inst.trigger inst.report with
    | none => rw [hext] at h; simp at h
    | some rt =>
        rw [hext] at h
        simp only [Option.some.injEq] at h
        rw [← h]
        rfl
  refine ⟨hsrc, ?_⟩
  intro instance_id frame inst ontology si v10 t hp ht
  rw [has_differences_eq, versions_differ_eq_or, ht, hsrc inst ontology si hp,
    triggers_differ_some_none]
  simp

/-- A trivial FAMuS 1.1 instance, its processed form, and a FAMuS 1.0 record
with a source trigger, for the `spec_C9` witness. -/
def c9Inst : Instance11 :=
  { trigger := none, report := [], source := [], report_template := [], source_template := [] }

def c9Si : SchemaInstance :=
  { report := { text := "", annotations := [], trigger := none }
    source := { text := "", annotations := [], trigger := none } }

def c9Trig : Trigger :=
  { text := "t", start_char := some 0, end_char := some 0, start_token := some 0,
    end_token := some 0, frame := "f" }

def c9V10 : SchemaInstance :=
  { report := { text := "", annotations := [], trigger := none }
    source := { text := "", annotations := [], trigger := some c9Trig } }

/-- Closed witness instantiating both parts of `spec_C9`. -/
theorem spec_C9_witness :
    c9Si.source.trigger = none ∧
    (create_unified_instance "i" "f" c9V10 c9Si []).has_differences = true :=
  ⟨spec_C9.1 c9Inst [] c9Si (by decide),
   spec_C9.2 "i" "f" c9Inst [] c9Si c9V10 c9Trig (by decide) rfl⟩

/-- C10: a non-empty FAMuS 1.1 trigger descriptor with a missing `start_token`
or `end_token` still yields a present trigger record whose `start_char` and
`end_char` are `None`, and `normalize_trigger` preserves those `None` values
instead of substituting the `0` defaults. -/
theorem spec_C10 (td : TriggerDict) (tokens : List String)
    (h : td.start_token = none ∨ td.end_token = none) :
    extract_trigger_11 (some td) tokens
      = some (some { text := joinSp td.tokens, start_char := none, end_char := none,
                     start_token := td.start_token.map Int.ofNat,
                     end_token := td.end_token.map Int.ofNat, frame := td.frame }) ∧
    normalize_trigger
        (some { text := joinSp td.tokens, start_char := none, end_char := none,
                start_token := td.start_token.map Int.ofNat,
                end_token := td.end_token.map Int.ofNat, frame := td.frame })
      = some { text := joinSp td.tokens, start_char := none, end_char := none,
               start_token := td.start_token.map Int.ofNat,
               end_token := td.end_token.map Int.ofNat, frame := td.frame } := by
  refine ⟨?_, rfl⟩
  rcases h with h | h
  · cases het : td.end_token <;> simp [extract_trigger_11, h, het]
  · cases hst : td.start_token <;> simp [extract_trigger_11, h, hst]

/-- Closed witness instantiating `spec_C10` at a concrete descriptor with a
missing `start_token`. -/
theorem spec_C10_witness :
    extract_trigger_11
        (some { tokens := ["w"], start_token := none, end_token := some 0, frame := "F" })
        ["a"]
      = some (some { text := "w", start_char := none, end_char := none,
                     start_token := none, end_token := some 0, frame := "F" }) ∧
    normalize_trigger
        (some { text := "w", start_char := none, end_char := none,
                start_token := none, end_token := some 0, frame := "F" })
      = some { text := "w", start_char := none, end_char := none,
               start_token := none, end_token := some 0, frame := "F" } :=
  spec_C10 { tokens := ["w"], start_token := none, end_token := some 0, frame := "F" }
    ["a"] (Or.inl rfl)

/-- The trigger condition of claim C1: both absent, or both present with equal
`text`, `start_char` and `end_char`. -/
def trigger_match : Option Trigger → Option Trigger → Prop
  | none, none => True
  | some t1, some t2 =>
      t1.text = t2.text ∧ t1.start_char = t2.start_char ∧ t1.end_char = t2.end_char
  | _, _ => False

lemma triggers_differ_eq_false (t1 t2 : Option Trigger) (h : trigger_match t1 t2) :
    triggers_differ t1 t2 = false := by
  cases t1 with
  | none =>
      cases t2 with
      | none => rfl
      | some b => exact absurd h (by simp [trigger_match])
  | some a =>
      cases t2 with
      | none => exact absurd h (by simp [trigger_match])
      | some b =>
          obtain ⟨h1, h2, h3⟩ := h
          simp [triggers_differ, h1, h2, h3]

/-- A normalized annotation and the two schema instances of the C1
counterexample: the report lists `[c1Ann, c1Ann]` and `[c1Ann]` have identical
key sets but different lengths. -/
def c1Ann : NormAnnot :=
  { text := "t", span := [0, 1], token_span := [0, 0], role := "r", label := "r",
    role_definition := "" }

def c1A : SchemaInstance :=
  { report := { text := "d", annotations := [c1Ann, c1Ann], trigger := none }
    source := { text := "", annotations := [], trigger := none } }

def c1B : SchemaInstance :=
  { report := { text := "d", annotations := [c1Ann], trigger := none }
    source := { text := "", annotations := [], trigger := none } }

/-- Counterexample to C1 as stated: two documents with identical unordered
`(role, text, char_span)` sets and both triggers absent are still reported
with `has_differences = true`, because `annotations_differ` compares the list
lengths before the sets (`[c1Ann, c1Ann]` versus `[c1Ann]`). -/
theorem spec_C1_cex :
    ((c1A.report.annotations.map annKey).toFinset
        = (c1B.report.annotations.map annKey).toFinset) ∧
    ((c1A.source.annotations.map annKey).toFinset
        = (c1B.source.annotations.map annKey).toFinset) ∧
    c1A.report.trigger = none ∧ c1B.report.trigger = none ∧
    c1A.source.trigger = none ∧ c1B.source.trigger = none ∧
    (create_unified_instance "i" "f" c1A c1B []).has_differences = true := by
  decide

/-- C1 (amended): `has_differences` is `false` whenever, for both the report
and the source pair, the two annotation lists have equal lengths and identical
unordered `(role, text, char_span)` key sets, and the triggers are both absent
or both present with equal `text`, `start_char` and `end_char`. -/
theorem spec_C1 (A B : SchemaInstance) (instance_id frame : String)
    (ontology : List (String × FrameData))
    (hlr : A.report.annotations.length = B.report.annotations.length)
    (hls : A.source.annotations.length = B.source.annotations.length)
    (hsr : (A.report.annotations.map annKey).toFinset
        = (B.report.annotations.map annKey).toFinset)
    (hss : (A.source.annotations.map annKey).toFinset
        = (B.source.annotations.map annKey).toFinset)
    (htr : trigger_match A.report.trigger B.report.trigger)
    (hts : trigger_match A.source.trigger B.source.trigger) :
    (create_unified_instance instance_id frame A B ontology).has_differences = false := by
  rw [has_differences_eq, versions_differ_eq_or,
    annotations_differ_eq_false _ _ hlr hsr, annotations_differ_eq_false _ _ hls hss,
    triggers_differ_eq_false _ _ htr, triggers_differ_eq_false _ _ hts]
  rfl

/-- Closed witness instantiating `spec_C1` at a pair of equal singleton
documents. -/
theorem spec_C1_witness :
    (create_unified_instance "i" "f" c1B c1B []).has_differences = false :=
  spec_C1 c1B c1B "i" "f" [] rfl rfl rfl rfl trivial trivial

lemma process10_anns_some (inst : Instance10) (ont : List (String × FrameData))
    (fd : FrameData) (hlk : ont.lookup inst.frame = some fd) :
    (process_famus_10_instance inst ont).report.annotations
      = (enrich_annotations fd.all_roles
          (convert_role_annotations inst.report_dict.role_annotations)).map
            normalize_annotation ∧
    (process_famus_10_instance inst ont).source.annotations
      = (enrich_annotations fd.all_roles
          (convert_role_annotations inst.source_dict.role_annotations)).map
            normalize_annotation := by
  simp [process_famus_10_instance, hlk]

lemma process10_anns_none (inst : Instance10) (ont : List (String × FrameData))
    (hlk : ont.lookup inst.frame = none) :
    (process_famus_10_instance inst ont).report.annotations
      = (convert_role_annotations inst.report_dict.role_annotations).map
          normalize_annotation ∧
    (process_famus_10_instance inst ont).source.annotations
      = (convert_role_annotations inst.source_dict.role_annotations).map
          normalize_annotation := by
  simp [process_famus_10_instance, hlk]

/-- Counterexample data for C3: a FAMuS 1.0 instance with one annotation of
role `X` and an ontology whose frame table defines only role `Y`. -/
def c3Inst : Instance10 :=
  { frame := "F"
    report_dict :=
      { doctext := "d"
        role_annotations := [("X", [.good "t" 0 1 0 0 ""])]
        frame_trigger_span := none }
    source_dict := { doctext := "s", role_annotations := [], frame_trigger_span := none } }

def c3OntN : List (String × FrameData) :=
  [("F", { definition := "fd", ancestors := [], descendants := [],
           all_roles := [("Y", "ydef")] })]

def c3OntM : List (String × FrameData) :=
  [("F", { definition := "fd", ancestors := [], descendants := [],
           all_roles := [("X", "xdef")] })]

/-- Counterexample to C3 as stated: the canonical output of an annotation
whose role is not in the frame's role-definition table still carries the
`role_definition` field, bound to the empty string (`normalize_annotation`
adds the key unconditionally), rather than being left without the field. -/
theorem spec_C3_cex :
    (process_famus_10_instance c3Inst c3OntN).report.annotations.map
        (fun a => (a.role, a.role_definition)) = [("X", "")] ∧
    (role_table c3Inst.frame c3OntN).lookup "X" = none := by
  decide

/-- C3 (amended): in the canonical output every annotation carries a
`role_definition` field; it equals the definition found for the annotation's
role in the frame's role-definition table, and equals the empty string when
the role is unmatched (or the frame is unknown to the ontology). -/
theorem spec_C3 (inst : Instance10) (ontology : List (String × FrameData)) (a : NormAnnot)
    (ha : a ∈ (process_famus_10_instance inst ontology).report.annotations ∨
          a ∈ (process_famus_10_instance inst ontology).source.annotations) :
    a.role_definition = ((role_table inst.frame ontology).lookup a.role).getD "" := by
  cases hlk : ontology.lookup inst.frame with
  | some fd =>
      have hrt : role_table inst.frame ontology = fd.all_roles := by
        rw [role_table, hlk]
      rw [hrt]
      obtain ⟨hrep, hsrc⟩ := process10_anns_some inst ontology fd hlk
      rcases ha with ha | ha
      · rw [hrep] at ha
        exact role_definition_of_norm_enrich fd.all_roles _
          (role_definition_none_of_convert _) a ha
      · rw [hsrc] at ha
        exact role_definition_of_norm_enrich fd.all_roles _
          (role_definition_none_of_convert _) a ha
  | none =>
      have hrt : role_table inst.frame ontology = [] := by
        rw [role_table, hlk]
      rw [hrt]
      obtain ⟨hrep, hsrc⟩ := process10_anns_none inst ontology hlk
      have hempty : (([] : List (String × String)).lookup a.role).getD "" = "" := rfl
      rw [hempty]
      rcases ha with ha | ha
      · rw [hrep] at ha
        exact role_definition_of_norm _ (role_definition_none_of_convert _) a ha
      · rw [hsrc] at ha
        exact role_definition_of_norm _ (role_definition_none_of_convert _) a ha

/-- The canonical annotation produced for role `X` under the matching
ontology `c3OntM`. -/
def c3WAnn : NormAnnot :=
  { text := "t", span := [0, 1], token_span := [0, 0], role := "X", label := "X",
    role_definition := "xdef" }

/-- Closed witness instantiating `spec_C3` at a concrete instance whose role
is matched by the ontology. -/
theorem spec_C3_witness :
    c3WAnn.role_definition = ((role_table c3Inst.frame c3OntM).lookup c3WAnn.role).getD "" :=
  spec_C3 c3Inst c3OntM c3WAnn (Or.inl (by decide))
